import Mathlib

/-!
Verification of the pyfao56 tools modules `soil_water.py` (class SoilWater)
and `stats.py` (class Statistics) against their natural-language
specification.

Shallow embedding conventions:
* Python floats are modelled as exact rationals (`ℚ`); the specification's
  statements are about the exact arithmetic the formulas denote.
* `math.sqrt` is modelled as `Real.sqrt` (the only real-valued operation).
* Python strings are modelled as lists of characters (`List Char`), so that
  all string processing is by structural recursion.
* Fallible code is modelled in `Except PyErr`; `PyErr` names the Python
  exception class that the corresponding operation raises.
* pandas DataFrames are modelled as association tables: a layered table
  (`swcdata` / `swddata`) is a list of date columns together with rows
  `(bottom depth in cm, one value per column)`; the model output table
  `odata` is a list of date-indexed records carrying Zr, TAW and RAW.
* File I/O is modelled by explicit file values: `open` failure is an input
  flag, the written file is returned instead of being put on a disk.
-/

/-- Python exception classes that the embedded code can raise. -/
inductive PyErr where
  | indexError      -- IndexError, e.g. [..][0] on an empty list
  | keyError        -- KeyError from DataFrame .loc lookups
  | attributeError  -- AttributeError, e.g. attribute access on None
  | unboundLocal    -- UnboundLocalError: local variable used before assignment
  | zeroDivision    -- ZeroDivisionError from float division by zero
  | valueError      -- ValueError (scipy / int() parse failures)
  | typeError       -- TypeError, e.g. f.write(None)
  | nanValue        -- stands for a pandas NaN entering a computed table
deriving DecidableEq

/-- Measurement dates ('YYYY-DOY' strings) modelled as character lists. -/
abbrev Date := List Char

/-- Error-propagating map over a list, the shape of a Python for-loop that
appends to an accumulator and can raise. -/
def tmapM (f : α → Except PyErr β) : List α → Except PyErr (List β)
  | [] => .ok []
  | a :: t =>
    match f a with
    | .error e => .error e
    | .ok b =>
      match tmapM f t with
      | .error e => .error e
      | .ok l => .ok (b :: l)

/-- Sequencing of a fallible step with the rest of a computation (the
implicit exception propagation of straight-line Python code). -/
def ebind (e : Except PyErr α) (f : α → Except PyErr β) : Except PyErr β :=
  match e with
  | .error err => .error err
  | .ok a => f a

/-- Python's `str.split('-')` on a character list. -/
def splitDash : List Char → List (List Char)
  | [] => [[]]
  | c :: t =>
    if c = '-' then [] :: splitDash t
    else
      match splitDash t with
      | h :: r => (c :: h) :: r
      | [] => [[c]]

/-- The character for a decimal digit. -/
def digitChar (d : Nat) : Char := Char.ofNat (48 + d)

/-- The numeric value of a decimal digit character. -/
def charVal (c : Char) : Nat := c.toNat - 48

/-- Python's `int(s)` on a string of decimal digits. -/
def parseNatL (s : List Char) : Nat := s.foldl (fun a c => a * 10 + charVal c) 0

/-- The decimal digits of `n`, zero-padded on the left to width `w`:
Python's `'{:0wd}'.format(n)`. -/
def padChars (w : Nat) (n : Nat) : List Char :=
  (List.replicate (w - (Nat.digits 10 n).length) 0 ++ (Nat.digits 10 n).reverse).map digitChar

/-- The composite key `'{:04d}-{:03d}'.format(year, doy)` built by `loadfile`. -/
def fmtDate (y d : Nat) : Date := padChars 4 y ++ '-' :: padChars 3 d

/-- Rounding a value to three decimal places, the effect of writing it with a
`'{:w.3f}'` format and re-parsing it with `float()`. -/
def round3 (q : ℚ) : ℚ := (round (q * 1000) : ℚ) / 1000

/-- Python's `int()` truncation toward zero on a float. -/
def pyInt (q : ℚ) : ℤ := Int.tdiv q.num q.den

namespace Statistics

/-- `Statistics.all_identical`: True iff all elements of the list are equal,
scanning adjacent pairs. -/
def all_identical : List ℚ → Bool
  | a :: b :: t => if a = b then all_identical (b :: t) else false
  | _ => true

/-- The mean of the squared pointwise differences computed by
`Statistics.rmse` before the final square root: the `differences` /
`squared_differences` loops and the division by the length. -/
def rmseRad (meas modeled : List ℚ) : Except PyErr ℚ :=
  if modeled.length < meas.length then .error .indexError
  else
    let ds := (List.range meas.length).map (fun i => meas.getD i 0 - modeled.getD i 0)
    let sq := ds.map (fun x => x ^ 2)
    if sq.length = 0 then .error .zeroDivision
    else .ok (sq.sum / (sq.length : ℚ))

/-- `Statistics.rmse`: square root of the mean squared difference. -/
noncomputable def rmse (meas modeled : List ℚ) : Except PyErr ℝ :=
  match rmseRad meas modeled with
  | .error e => .error e
  | .ok q => .ok (Real.sqrt (q : ℝ))

/-- `Statistics.nse`: Nash-Sutcliffe efficiency. `statistics.mean` raises on
an empty list; the division by `sst` raises when `sst` is zero. -/
def nse (meas modeled : List ℚ) : Except PyErr ℚ :=
  if meas.length = 0 then .error .valueError
  else if modeled.length < meas.length then .error .indexError
  else
    let μ := meas.sum / (meas.length : ℚ)
    let sse := ((List.range meas.length).map
      (fun i => (meas.getD i 0 - modeled.getD i 0) ^ 2)).sum
    let sst := ((List.range meas.length).map
      (fun i => (meas.getD i 0 - μ) ^ 2)).sum
    if sst = 0 then .error .zeroDivision
    else .ok (1 - sse / sst)

/-- The squared Pearson correlation coefficient of `(modeled, meas)`,
which is the `rvalue ** 2` of `scipy.stats.linregress(x=modeled, y=meas)`
(scipy returns `rvalue = 0` when the denominator vanishes). -/
def rsqVal (meas modeled : List ℚ) : ℚ :=
  let n : ℚ := (meas.length : ℚ)
  let sx := modeled.sum
  let sy := meas.sum
  let sxy := ((List.range meas.length).map
    (fun i => modeled.getD i 0 * meas.getD i 0)).sum
  let sxx := (modeled.map (fun x => x ^ 2)).sum
  let syy := (meas.map (fun y => y ^ 2)).sum
  let den := (n * sxx - sx ^ 2) * (n * syy - sy ^ 2)
  if den = 0 then 0 else (n * sxy - sx * sy) ^ 2 / den

/-- Modelled from the scipy documentation: `scipy.stats.linregress` raises
`ValueError` when all x values are identical or the inputs have different
lengths, and otherwise yields a finite `rvalue`. -/
def linregressR2 (meas modeled : List ℚ) : Except PyErr ℚ :=
  if all_identical modeled then .error .valueError
  else if modeled.length ≠ meas.length then .error .valueError
  else .ok (rsqVal meas modeled)

/-- The body of `Statistics.__init__`: returns `(rmse, bias, rsquare, nse)`.
The degenerate branch (identical sequences or a constant input sequence)
returns `(0, 0, 1, 1)` without touching any of the formulas. In the
computing branch `sum(meas)/len(meas)` and the bias division follow Python
float semantics: division by zero raises `ZeroDivisionError`. -/
noncomputable def statistics (meas modeled : List ℚ) : Except PyErr (ℝ × ℚ × ℚ × ℚ) :=
  if meas ≠ modeled ∧ all_identical meas = false ∧ all_identical modeled = false then
    if meas.length = 0 then .error .zeroDivision
    else if modeled.length = 0 then .error .zeroDivision
    else
      let mm := meas.sum / (meas.length : ℚ)
      let mM := modeled.sum / (modeled.length : ℚ)
      match rmse meas modeled with
      | .error e => .error e
      | .ok r =>
        if mm = 0 then .error .zeroDivision
        else
          match linregressR2 meas modeled with
          | .error e => .error e
          | .ok rsq =>
            match nse meas modeled with
            | .error e => .error e
            | .ok ns => .ok (r, (mM - mm) / mm * 100, rsq, ns)
  else .ok ((0 : ℝ), 0, 1, 1)

end Statistics

/-- A layered measurement table (`swcdata` / `swddata`): date columns and
rows of `(bottom depth of soil layer in cm, one value per date column)`. -/
structure LayerTable where
  cols : List Date
  rows : List (Nat × List ℚ)

/-- One date-indexed record of the pyfao56 Model output table `odata`:
simulated root depth Zr (m), total available water TAW (mm) and readily
available water RAW (mm). -/
structure OutRow where
  date : Date
  Zr : ℚ
  TAW : ℚ
  RAW : ℚ

/-- The pyfao56 Model collaborator: optional per-layer soil data
(`mdl.sol.sdata`, bottom depth in cm paired with its thetaFC), the scalar
default field capacity `mdl.par.thetaFC`, the maximum root depth
`mdl.par.Zrmax` in m, and the output table `mdl.odata`. -/
structure Model where
  sol : Option (List (Nat × ℚ))
  thetaFC : ℚ
  Zrmax : ℚ
  odata : List OutRow

/-- One row of the derived root-zone table `rzdata`. `year` and `doy` are
the string columns 'Year' and 'DOY'; they are absent (`none`) on a table
that was loaded from a file, which drops them. -/
structure RzRow where
  date : Date
  year : Option (List Char)
  doy : Option (List Char)
  Zr : ℚ
  SWDr : ℚ
  SWDrmax : ℚ
  SWCr : ℚ
  SWCrmax : ℚ
  MeasKs : ℚ

/-- The SoilWater class state: the optional model collaborator and the
three tables (each `none` until assigned). -/
structure SoilWater where
  mdl : Option Model
  swcdata : Option LayerTable
  swddata : Option LayerTable
  rzdata : Option (List RzRow)

/-- Field capacity for one layer in `compute_swd_from_swc`: the per-layer
`sol['thetaFC']` when soil data is present, else the scalar
`mdl.par.thetaFC`. A depth absent from the soil data would become a pandas
NaN under column alignment; that is modelled as the error `nanValue`. -/
def fcOf (m : Model) (depth : Nat) : Except PyErr ℚ :=
  match m.sol with
  | none => .ok m.thetaFC
  | some sdata =>
    match sdata.find? (fun p => p.1 = depth) with
    | some p => .ok p.2
    | none => .error .nanValue

/-- `SoilWater.compute_swd_from_swc`: per layer and date column,
`(thetaFC - content).clip(lower=0)`. With no model collaborator the
`AttributeError` on `self.mdl` is caught: message and return, no mutation.
With `swcdata` equal to `None` the initial `self.swcdata.copy()` raises.
The date columns are assumed not to be literally named 'thetaFC'
(they are 'YYYY-DOY' strings), so the helper column is dropped cleanly. -/
def compute_swd_from_swc (st : SoilWater) : Except PyErr SoilWater :=
  match st.swcdata with
  | none => .error .attributeError
  | some swc =>
    match st.mdl with
    | none => .ok st
    | some m =>
      ebind (tmapM (fun (r : Nat × List ℚ) =>
        ebind (fcOf m r.1) (fun fc =>
          .ok (r.1, r.2.map (fun c => max (fc - c) 0)))) swc.rows)
        (fun rows => .ok { st with swddata := some ⟨swc.cols, rows⟩ })

/-- The accumulators of one measurement date in `compute_root_zone_sw`:
`Dr`, `Drmax` (soil water deficit, mm), `H2Or`, `H2Ormax` (soil water
content, mm). -/
structure Acc4 where
  Dr : ℚ
  Drmax : ℚ
  H2Or : ℚ
  H2Ormax : ℚ

/-- Index of a date column in a column list (`DataFrame` column lookup). -/
def idxOf? (d : Date) : List Date → Option Nat
  | [] => none
  | c :: t => if c = d then some 0 else (idxOf? d t).map (· + 1)

/-- `table.loc[lyr, mykey]`: the value of layer row `lyr` at date column
`mykey`; a missing row or column raises `KeyError`. -/
def swGet (t : LayerTable) (lyr : Nat) (d : Date) : Except PyErr ℚ :=
  match t.rows.find? (fun r => r.1 = lyr), idxOf? d t.cols with
  | some r, some j => .ok (r.2.getD j 0)
  | _, _ => .error .keyError

/-- `self.swcdata.loc[...]` with a possibly never-assigned `swcdata`. -/
def swcGet (o : Option LayerTable) (lyr : Nat) (d : Date) : Except PyErr ℚ :=
  match o with
  | none => .error .attributeError
  | some t => swGet t lyr d

/-- `[dpth for (idx, dpth) in enumerate(lyr_dpths) if inc <= dpth * 1000][0]`:
the first layer bottom depth at or beyond increment `inc` (in 10^-5 m);
an empty comprehension indexed at `[0]` raises `IndexError`. -/
def lyrFind (dpths : List Nat) (inc : Nat) : Except PyErr Nat :=
  match (dpths.filter (fun dp => inc ≤ dp * 1000)).head? with
  | some l => .ok l
  | none => .error .indexError

/-- One iteration of the per-increment walk of `compute_root_zone_sw`:
find the layer, test `inc <= Zr` (an `UnboundLocalError` when `Zr` was
never assigned), accumulate into the active accumulators when the test
holds, and into the max accumulators unconditionally. -/
def incStep (swd : LayerTable) (swcO : Option LayerTable) (d : Date)
    (zrO : Option ℚ) (a : Acc4) (inc : Nat) : Except PyErr Acc4 :=
  match lyrFind (swd.rows.map Prod.fst) inc with
  | .error e => .error e
  | .ok lyr =>
    match zrO with
    | none => .error .unboundLocal
    | some z =>
      if (inc : ℚ) ≤ z then
        match swGet swd lyr d with
        | .error e => .error e
        | .ok v =>
          match swcGet swcO lyr d with
          | .error e => .error e
          | .ok w =>
            match swGet swd lyr d with
            | .error e => .error e
            | .ok v2 =>
              match swcGet swcO lyr d with
              | .error e => .error e
              | .ok w2 =>
                .ok ⟨a.Dr + v / 100, a.Drmax + v2 / 100,
                     a.H2Or + w / 100, a.H2Ormax + w2 / 100⟩
      else
        match swGet swd lyr d with
        | .error e => .error e
        | .ok v2 =>
          match swcGet swcO lyr d with
          | .error e => .error e
          | .ok w2 => .ok ⟨a.Dr, a.Drmax + v2 / 100, a.H2Or, a.H2Ormax + w2 / 100⟩

/-- Error-propagating left fold, the shape of the per-increment loop. -/
def efoldl (f : Acc4 → Nat → Except PyErr Acc4) : Acc4 → List Nat → Except PyErr Acc4
  | a, [] => .ok a
  | a, i :: t =>
    match f a i with
    | .error e => .error e
    | .ok a' => efoldl f a' t

/-- The outer loop of `compute_root_zone_sw` over all measurement dates.
The local variable `Zr` is threaded through the loop: a date present in the
merged frame rebinds it (scaled to 10^-5 m), a missing date leaves the
previous binding in place (`except KeyError: pass`), and it starts out
unassigned (`none`). Every date gets its four accumulated sums. -/
def dateLoop (swd : LayerTable) (swcO : Option LayerTable)
    (merged : List (Date × ℚ)) (incs : List Nat) :
    Option ℚ → List Date → Except PyErr (List (Date × Acc4))
  | _, [] => .ok []
  | zrO, d :: rest =>
    let zrO' :=
      match merged.find? (fun p => p.1 = d) with
      | some p => some (p.2 * 100000)
      | none => zrO
    match efoldl (incStep swd swcO d zrO') ⟨0, 0, 0, 0⟩ incs with
    | .error e => .error e
    | .ok a =>
      match dateLoop swd swcO merged incs zrO' rest with
      | .error e => .error e
      | .ok l => .ok ((d, a) :: l)

/-- `sorted([0.0, (taw - dr) / (taw - raw), 1.0])[1]`: the measured Ks of
one date. Division follows the numpy float semantics of the source values
(total; modelled with rational division). -/
def ksOf (taw raw dr : ℚ) : ℚ :=
  (List.insertionSort (fun u v : ℚ => u ≤ v) [0, (taw - dr) / (taw - raw), 1]).getD 1 0

/-- `self.mdl.odata.loc[mykey, ...]`: output-table lookup by date. -/
def odLookup (odata : List OutRow) (d : Date) : Except PyErr OutRow :=
  match odata.find? (fun o => o.date = d) with
  | some o => .ok o
  | none => .error .keyError

/-- One row of the final `rzdata` for a date of the merged frame: Year and
DOY from splitting the date, the stored simulated root depth (m), the four
accumulated sums of that date and the measured Ks from TAW/RAW of that
date and the date's accumulated `SWDr`. -/
def buildRow (m : Model) (sums : List (Date × Acc4)) (p : Date × ℚ) :
    Except PyErr RzRow :=
  match odLookup m.odata p.1 with
  | .error e => .error e
  | .ok o =>
    let a := ((sums.find? (fun q => q.1 = p.1)).map Prod.snd).getD ⟨0, 0, 0, 0⟩
    .ok ⟨p.1, some ((splitDash p.1).getD 0 []), some ((splitDash p.1).getD 1 []),
         p.2, a.Dr, a.Drmax, a.H2Or, a.H2Ormax, ksOf o.TAW o.RAW a.Dr⟩

/-- `SoilWater.compute_root_zone_sw`. With `swddata` equal to `None` the
`AttributeError` is caught: message and return, no mutation. With no model
collaborator, `self.mdl.odata` raises uncaught. Otherwise: split every
date into year and day of year (`date.split('-')[1]` raises on a dash-less
date), merge the simulated root depths on dates present in both tables
(inner merge, left order kept), walk increments `range(1, int(rmax + 1))`
in units of 10^-5 m for each measurement date, and build the final rows
with the measured Ks. -/
def compute_root_zone_sw (st : SoilWater) : Except PyErr SoilWater :=
  match st.swddata with
  | none => .ok st
  | some swd =>
    match st.mdl with
    | none => .error .attributeError
    | some m =>
      ebind (tmapM (fun d =>
        if (splitDash d).length < 2 then (.error .indexError : Except PyErr Unit)
        else .ok ()) swd.cols) (fun _ =>
        let merged := swd.cols.filterMap
          (fun d => (m.odata.find? (fun o => o.date = d)).map (fun o => (d, o.Zr)))
        let incs := List.range' 1 (pyInt (m.Zrmax * 100000 + 1) - 1).toNat
        ebind (dateLoop swd st.swcdata merged incs none swd.cols) (fun sums =>
          ebind (tmapM (buildRow m sums) merged) (fun rows =>
            .ok { st with rzdata := some rows })))

/-- A saved content or deficit file ('.vswc' / '.vswd'): the column-header
line of date columns and one `(depth, values)` line per layer, every value
written with three decimals. -/
structure SwcFile where
  cols : List Date
  frows : List (Nat × List ℚ)

/-- One line of a saved root-zone file ('.rzsw'): the Year and DOY fields
(absent when the in-memory table had no such columns) and the six numeric
fields Zr, SWDr, SWDrmax, SWCr, SWCrmax, MeasKs with three decimals. -/
structure RzFileRow where
  year : Option (List Char)
  doy : Option (List Char)
  vals : List ℚ

/-- A saved root-zone file. -/
structure RzFile where
  frows : List RzFileRow

/-- The text written by `savefile` for a content/deficit table: each value
rendered at three decimals (`'{:8.3f}'`), keys and column names verbatim. -/
def saveLayerTable (t : LayerTable) : SwcFile :=
  ⟨t.cols, t.rows.map (fun r => (r.1, r.2.map round3))⟩

/-- The text written by `savefile` for a root-zone table: Year and DOY
verbatim (string formats `'{:4s}'`/`'{:3s}'`), the six numeric columns at
three decimals. -/
def saveRzTable (rows : List RzRow) : RzFile :=
  ⟨rows.map (fun r => ⟨r.year, r.doy,
    [round3 r.Zr, round3 r.SWDr, round3 r.SWDrmax,
     round3 r.SWCr, round3 r.SWCrmax, round3 r.MeasKs]⟩)⟩

/-- The `loadfile` parse of a content/deficit file: the column names from
header line 5, then per data line exactly `len(cols)` floats after the
depth key (`line[i]` raises `IndexError` on a short line). -/
def loadLayerFile (f : SwcFile) : Except PyErr LayerTable :=
  ebind (tmapM (fun (r : Nat × List ℚ) =>
    if r.2.length < f.cols.length then .error .indexError
    else .ok (r.1, r.2.take f.cols.length)) f.frows)
    (fun rows => .ok ⟨f.cols, rows⟩)

/-- The `loadfile` parse of a root-zone file: per line, the key is
rebuilt as `'{:04d}-{:03d}'.format(int(year), int(doy))` and the six
numeric fields are read (`line[i]` for i in range(2, 8)). A file written
from a table without Year/DOY columns fails on `int()` of a float field. -/
def loadRzFile (f : RzFile) : Except PyErr (List RzRow) :=
  tmapM (fun (r : RzFileRow) =>
    match r.year, r.doy with
    | some ys, some ds =>
      if r.vals.length < 6 then .error .indexError
      else .ok ⟨fmtDate (parseNatL ys) (parseNatL ds), none, none,
        r.vals.getD 0 0, r.vals.getD 1 0, r.vals.getD 2 0,
        r.vals.getD 3 0, r.vals.getD 4 0, r.vals.getD 5 0⟩
    | _, _ => .error .valueError) f.frows

/-- A destination of `savefile`: `none` when no path was given, `some b`
when a path was given and opening it for writing succeeds iff `b`. -/
abbrev Dest := Option Bool

/-- A source of `loadfile`: `none` when no path was given, `some none`
when the path cannot be opened (`FileNotFoundError`, caught), and
`some (some f)` when the file `f` is read. -/
abbrev Src (α : Type) := Option (Option α)

/-- `SoilWater.savefile`: each of the three optional paths is handled in
turn; an unopenable destination prints a message and writes nothing, and
writing an unassigned (`None`) table is `f.write(None)`, a `TypeError`.
The state is never mutated; the return value is what was written. -/
def savefile (st : SoilWater) (swcDest swdDest rzDest : Dest) :
    Except PyErr (Option SwcFile × Option SwcFile × Option RzFile) :=
  ebind (match swcDest with
         | none => .ok none
         | some false => .ok none
         | some true =>
           match st.swcdata with
           | none => .error .typeError
           | some t => .ok (some (saveLayerTable t))) (fun f1 =>
    ebind (match swdDest with
           | none => .ok none
           | some false => .ok none
           | some true =>
             match st.swddata with
             | none => .error .typeError
             | some t => .ok (some (saveLayerTable t))) (fun f2 =>
      ebind (match rzDest with
             | none => .ok none
             | some false => .ok none
             | some true =>
               match st.rzdata with
               | none => .error .typeError
               | some rows => .ok (some (saveRzTable rows))) (fun f3 =>
        .ok (f1, f2, f3))))

/-- `SoilWater.loadfile`: each of the three optional paths is handled in
turn; an unopenable source prints a message and leaves the corresponding
table unchanged (`FileNotFoundError` is caught), a readable file replaces
the table with its parse. -/
def loadfile (st : SoilWater) (swcSrc swdSrc : Src SwcFile) (rzSrc : Src RzFile) :
    Except PyErr SoilWater :=
  ebind (match swcSrc with
         | none => .ok st
         | some none => .ok st
         | some (some f) =>
           ebind (loadLayerFile f) (fun t => .ok { st with swcdata := some t }))
    (fun st1 =>
    ebind (match swdSrc with
           | none => .ok st1
           | some none => .ok st1
           | some (some f) =>
             ebind (loadLayerFile f) (fun t => .ok { st1 with swddata := some t }))
      (fun st2 =>
      match rzSrc with
      | none => .ok st2
      | some none => .ok st2
      | some (some f) =>
        ebind (loadRzFile f) (fun rows => .ok { st2 with rzdata := some rows })))

/-- The key and the rounded values a root-zone row keeps after a save/load
round trip (the Year/DOY columns themselves are not re-created). -/
def roundRz (r : RzRow) : RzRow :=
  ⟨r.date, none, none, round3 r.Zr, round3 r.SWDr, round3 r.SWDrmax,
   round3 r.SWCr, round3 r.SWCrmax, round3 r.MeasKs⟩

/-- The rounded image of a layer-table row after a save/load round trip. -/
def roundRow (r : Nat × List ℚ) : Nat × List ℚ := (r.1, r.2.map round3)

/-- The date '2022-001'. -/
def date1 : Date := ['2', '0', '2', '2', '-', '0', '0', '1']

/-- The date '2022-002'. -/
def date2 : Date := ['2', '0', '2', '2', '-', '0', '0', '2']

/-- Witness state for the Ks-clamp claim: one 1 cm layer, one date with a
model output row (Zr = 0.00001 m, TAW = 10, RAW = 5), Zrmax = 0.00002 m. -/
def stC1 : SoilWater :=
  ⟨some ⟨none, 3/10, 1/50000, [⟨date1, 1/100000, 10, 5⟩]⟩,
   some ⟨[date1], [(1, [3/10])]⟩, some ⟨[date1], [(1, [1/5])]⟩, none⟩

/-- The root-zone row that `compute_root_zone_sw` derives from `stC1`. -/
def rowC1 : RzRow :=
  ⟨date1, some ['2', '0', '2', '2'], some ['0', '0', '1'],
   1/100000, 1/500, 1/250, 3/1000, 3/500, 1⟩

/-- Witness state for the accumulator-ordering claim: one 1 cm layer, one
date with a model output row (Zr = 0.00001 m, TAW = 8, RAW = 4). -/
def stC10 : SoilWater :=
  ⟨some ⟨none, 3/10, 1/50000, [⟨date1, 1/100000, 8, 4⟩]⟩,
   some ⟨[date1], [(1, [2/5])]⟩, some ⟨[date1], [(1, [1/10])]⟩, none⟩

/-- The root-zone row that `compute_root_zone_sw` derives from `stC10`. -/
def rowC10 : RzRow :=
  ⟨date1, some ['2', '0', '2', '2'], some ['0', '0', '1'],
   1/100000, 1/1000, 1/500, 1/250, 1/125, 1⟩

/-- Witness state for the deficit claim: per-layer soil data present. -/
def stC2 : SoilWater :=
  ⟨some ⟨some [(10, 3/10)], 1/2, 1, []⟩, some ⟨[date1], [(10, [1/4])]⟩, none, none⟩

/-- Failing input for the silent-skip claim: the deficit table's only date
'2022-001' is absent from the model output table (which has '2022-002'),
so the first `Zr` lookup fails and `Zr` stays unbound. -/
def stC3 : SoilWater :=
  ⟨some ⟨none, 3/10, 1/50000, [⟨date2, 3/10, 10, 5⟩]⟩,
   some ⟨[date1], [(1, [3/10])]⟩, some ⟨[date1], [(1, [1/5])]⟩, none⟩

/-- Input for the unguarded-walk claim: the deepest layer bottom is 1 cm
(0.01 m) but Zrmax = 0.011 m, so the increment walk runs to 1100 and no
layer contains increment 1001. -/
def stC6 : SoilWater :=
  ⟨some ⟨none, 3/10, 11/1000, [⟨date1, 1/100000, 10, 5⟩]⟩,
   some ⟨[date1], [(1, [0])]⟩, some ⟨[date1], [(1, [0])]⟩, none⟩

/-- Witness state for the soft-failure claim: no model, empty content
table, unpopulated deficit and root-zone tables. -/
def stC8 : SoilWater := ⟨none, some ⟨[], []⟩, none, none⟩

/-- Witness content table for the round-trip claim (1/3 does not have a
three-decimal representation, so rounding is visible). -/
def tcW : LayerTable := ⟨[fmtDate 2022 1], [(10, [1/3])]⟩

/-- Witness deficit table for the round-trip claim. -/
def tdW : LayerTable := ⟨[fmtDate 2022 1], [(10, [1/20])]⟩

/-- Witness root-zone table for the round-trip claim, in the canonical
form produced by derivation: the key '2022-001' with its Year and DOY. -/
def rzW : List RzRow :=
  [⟨fmtDate 2022 1, some (padChars 4 2022), some (padChars 3 1),
    1/3, 1/4, 1/2, 3/4, 1, 1/2⟩]

/-- Witness state for the round-trip claim. -/
def stC9 : SoilWater := ⟨none, some tcW, some tdW, some rzW⟩

/-! ### Generic lemmas about the loop combinators -/

theorem tmapM_forall₂ {f : α → Except PyErr β} :
    ∀ {l : List α} {l' : List β}, tmapM f l = .ok l' →
      List.Forall₂ (fun a b => f a = .ok b) l l' := by
  intro l
  induction l with
  | nil =>
    intro l' h
    simp only [tmapM] at h
    cases h
    exact List.Forall₂.nil
  | cons a t ih =>
    intro l' h
    simp only [tmapM] at h
    cases hfa : f a with
    | error e => rw [hfa] at h; cases h
    | ok b =>
      rw [hfa] at h
      cases ht : tmapM f t with
      | error e => rw [ht] at h; cases h
      | ok l₀ =>
        rw [ht] at h
        cases h
        exact List.Forall₂.cons hfa (ih ht)

theorem tmapM_map {f : α → Except PyErr β} {g : α → β} :
    ∀ {l : List α}, (∀ a ∈ l, f a = .ok (g a)) → tmapM f l = .ok (l.map g) := by
  intro l
  induction l with
  | nil => intro _; rfl
  | cons a t ih =>
    intro h
    have ha : f a = .ok (g a) := h a (by simp)
    have ht : tmapM f t = .ok (t.map g) := ih (fun x hx => h x (by simp [hx]))
    simp only [tmapM, ha, ht, List.map_cons]

theorem forall₂_mem_right {R : α → β → Prop} :
    ∀ {l : List α} {l' : List β}, List.Forall₂ R l l' → ∀ b ∈ l', ∃ a ∈ l, R a b := by
  intro l l' h
  induction h with
  | nil => intro b hb; cases hb
  | cons hab _ ih =>
    intro b hb
    rcases List.mem_cons.mp hb with hb | hb
    · subst hb; exact ⟨_, by simp, hab⟩
    · rcases ih b hb with ⟨a, ha, hr⟩
      exact ⟨a, by simp [ha], hr⟩

theorem efoldl_inv {f : Acc4 → Nat → Except PyErr Acc4} {P : Acc4 → Prop}
    (hstep : ∀ a i a', P a → f a i = .ok a' → P a') :
    ∀ {l : List Nat} {a a' : Acc4}, P a → efoldl f a l = .ok a' → P a' := by
  intro l
  induction l with
  | nil =>
    intro a a' ha h
    simp only [efoldl] at h
    cases h
    exact ha
  | cons i t ih =>
    intro a a' ha h
    simp only [efoldl] at h
    cases hfa : f a i with
    | error e => rw [hfa] at h; cases h
    | ok a₁ =>
      rw [hfa] at h
      exact ih (hstep a i a₁ ha hfa) h

theorem efoldl_id {f : Acc4 → Nat → Except PyErr Acc4} :
    ∀ {l : List Nat} {a : Acc4}, (∀ i ∈ l, ∀ b, f b i = .ok b) →
      efoldl f a l = .ok a := by
  intro l
  induction l with
  | nil => intro a _; rfl
  | cons i t ih =>
    intro a h
    have hi : f a i = .ok a := h i (by simp) a
    simp only [efoldl, hi]
    exact ih (fun j hj b => h j (by simp [hj]) b)

theorem efoldl_append {f : Acc4 → Nat → Except PyErr Acc4} :
    ∀ {l₁ l₂ : List Nat} {a : Acc4},
      efoldl f a (l₁ ++ l₂) =
        match efoldl f a l₁ with
        | .error e => .error e
        | .ok a' => efoldl f a' l₂ := by
  intro l₁
  induction l₁ with
  | nil => intro l₂ a; rfl
  | cons i t ih =>
    intro l₂ a
    simp only [List.cons_append, efoldl]
    cases f a i with
    | error e => rfl
    | ok a' => exact ih

theorem dateLoop_mem {swd : LayerTable} {swcO : Option LayerTable}
    {merged : List (Date × ℚ)} {incs : List Nat} :
    ∀ {ds : List Date} {zrO : Option ℚ} {sums : List (Date × Acc4)},
      dateLoop swd swcO merged incs zrO ds = .ok sums →
      ∀ p ∈ sums, ∃ zr',
        efoldl (incStep swd swcO p.1 zr') ⟨0, 0, 0, 0⟩ incs = .ok p.2 := by
  intro ds
  induction ds with
  | nil =>
    intro zrO sums h p hp
    simp only [dateLoop] at h
    cases h
    cases hp
  | cons d rest ih =>
    intro zrO sums h p hp
    simp only [dateLoop] at h
    cases hf : efoldl (incStep swd swcO d
        (match merged.find? (fun p => p.1 = d) with
         | some p => some (p.2 * 100000)
         | none => zrO)) ⟨0, 0, 0, 0⟩ incs with
    | error e => rw [hf] at h; cases h
    | ok a =>
      rw [hf] at h
      cases hr : dateLoop swd swcO merged incs
          (match merged.find? (fun p => p.1 = d) with
           | some p => some (p.2 * 100000)
           | none => zrO) rest with
      | error e => rw [hr] at h; cases h
      | ok l =>
        rw [hr] at h
        cases h
        rcases List.mem_cons.mp hp with hp | hp
        · subst hp
          exact ⟨_, hf⟩
        · exact ih hr p hp

/-! ### Digits, parsing and rounding -/

theorem charVal_digitChar : ∀ d < 10, charVal (digitChar d) = d := by decide

theorem foldr_parse_digits :
    ∀ (L : List Nat), (∀ d ∈ L, d < 10) →
      List.foldr (fun d a => a * 10 + charVal (digitChar d)) 0 L = Nat.ofDigits 10 L := by
  intro L
  induction L with
  | nil => intro _; simp [Nat.ofDigits_nil]
  | cons d t ih =>
    intro h
    have hd : d < 10 := h d (by simp)
    have ht := ih (fun x hx => h x (by simp [hx]))
    simp only [List.foldr_cons, ht, Nat.ofDigits_cons, charVal_digitChar d hd]
    ring

theorem parseNatL_padChars (w n : Nat) : parseNatL (padChars w n) = n := by
  unfold parseNatL padChars
  rw [List.foldl_map, List.foldl_append]
  have hrep : ∀ (k : Nat),
      List.foldl (fun a d => a * 10 + charVal (digitChar d)) 0 (List.replicate k 0) = 0 := by
    intro k
    induction k with
    | zero => rfl
    | succ m ih => simpa [List.replicate_succ, charVal_digitChar 0 (by norm_num)] using ih
  rw [hrep, List.foldl_reverse]
  have hlt : ∀ d ∈ Nat.digits 10 n, d < 10 :=
    fun d hd => Nat.digits_lt_base (by norm_num) hd
  calc List.foldr (fun d a => a * 10 + charVal (digitChar d)) 0 (Nat.digits 10 n)
      = Nat.ofDigits 10 (Nat.digits 10 n) := foldr_parse_digits _ hlt
    _ = n := Nat.ofDigits_digits 10 n

theorem round3_close (q : ℚ) : |round3 q - q| ≤ 1 / 2000 := by
  have h := abs_sub_round (q * 1000)
  have heq : round3 q - q = -((q * 1000 - (round (q * 1000) : ℚ)) / 1000) := by
    unfold round3
    ring
  rw [heq, abs_neg, abs_div]
  rw [show |(1000 : ℚ)| = 1000 by norm_num]
  rw [div_le_iff₀ (by norm_num : (0:ℚ) < 1000)]
  calc |q * 1000 - (round (q * 1000) : ℚ)| ≤ 1 / 2 := h
    _ = 1 / 2000 * 1000 := by norm_num

/-! ### The sorted-median clamp and the accumulators -/

theorem ksOf_eq_clamp (taw raw dr : ℚ) :
    ksOf taw raw dr = max 0 (min ((taw - dr) / (taw - raw)) 1) := by
  unfold ksOf
  set x : ℚ := (taw - dr) / (taw - raw) with hx
  rcases le_or_lt x 1 with h1 | h1
  · rcases le_or_lt 0 x with h0 | h0
    · simp only [List.insertionSort, List.orderedInsert, if_pos h1, if_pos h0]
      simp [min_eq_left h1, max_eq_right h0]
    · simp only [List.insertionSort, List.orderedInsert, if_pos h1,
        if_neg (not_le.mpr h0), if_pos (by norm_num : (0:ℚ) ≤ 1)]
      simp [min_eq_left h1, max_eq_left (le_of_lt h0)]
  · simp only [List.insertionSort, List.orderedInsert,
      if_neg (not_le.mpr h1), if_pos (by norm_num : (0:ℚ) ≤ 1)]
    simp [min_eq_right (le_of_lt h1), max_eq_right (by norm_num : (0:ℚ) ≤ 1)]

theorem ksOf_mem_unit (taw raw dr : ℚ) : 0 ≤ ksOf taw raw dr ∧ ksOf taw raw dr ≤ 1 := by
  rw [ksOf_eq_clamp]
  constructor
  · exact le_max_left 0 _
  · exact max_le (by norm_num) (min_le_right _ _)

theorem swGet_nonneg {t : LayerTable} {lyr : Nat} {d : Date} {v : ℚ}
    (hpos : ∀ r ∈ t.rows, ∀ x ∈ r.2, 0 ≤ x) (h : swGet t lyr d = .ok v) : 0 ≤ v := by
  unfold swGet at h
  cases hf : t.rows.find? (fun r => r.1 = lyr) with
  | none => rw [hf] at h; simp at h
  | some r =>
    cases hj : idxOf? d t.cols with
    | none => rw [hf, hj] at h; simp at h
    | some j =>
      rw [hf, hj] at h
      cases h
      have hr : r ∈ t.rows := List.mem_of_find?_eq_some hf
      by_cases hlen : j < r.2.length
      · rw [List.getD_eq_getElem _ _ hlen]
        exact hpos r hr _ (List.get_mem _ _ _)
      · rw [List.getD_eq_default _ _ (le_of_not_lt hlen)]

theorem swcGet_nonneg {o : Option LayerTable} {lyr : Nat} {d : Date} {v : ℚ}
    (hpos : ∀ t, o = some t → ∀ r ∈ t.rows, ∀ x ∈ r.2, 0 ≤ x)
    (h : swcGet o lyr d = .ok v) : 0 ≤ v := by
  cases o with
  | none => simp [swcGet] at h
  | some t => exact swGet_nonneg (hpos t rfl) h

theorem incStep_mono {swd : LayerTable} {swcO : Option LayerTable} {d : Date}
    {zrO : Option ℚ} {a a' : Acc4} {inc : Nat}
    (hswd : ∀ r ∈ swd.rows, ∀ x ∈ r.2, 0 ≤ x)
    (hswc : ∀ t, swcO = some t → ∀ r ∈ t.rows, ∀ x ∈ r.2, 0 ≤ x)
    (hinv : a.Dr ≤ a.Drmax ∧ a.H2Or ≤ a.H2Ormax)
    (h : incStep swd swcO d zrO a inc = .ok a') :
    a'.Dr ≤ a'.Drmax ∧ a'.H2Or ≤ a'.H2Ormax := by
  unfold incStep at h
  cases hl : lyrFind (swd.rows.map Prod.fst) inc with
  | error e => rw [hl] at h; simp at h
  | ok lyr =>
    rw [hl] at h
    cases zrO with
    | none => simp at h
    | some z =>
      dsimp only at h
      by_cases hle : (inc : ℚ) ≤ z
      · rw [if_pos hle] at h
        cases hv : swGet swd lyr d with
        | error e => rw [hv] at h; simp at h
        | ok v =>
          rw [hv] at h
          cases hw : swcGet swcO lyr d with
          | error e => rw [hw] at h; simp at h
          | ok w =>
            rw [hw] at h
            cases h
            refine ⟨?_, ?_⟩ <;> simp <;> linarith [hinv.1, hinv.2]
      · rw [if_neg hle] at h
        cases hv : swGet swd lyr d with
        | error e => rw [hv] at h; simp at h
        | ok v =>
          rw [hv] at h
          cases hw : swcGet swcO lyr d with
          | error e => rw [hw] at h; simp at h
          | ok w =>
            rw [hw] at h
            cases h
            have hv0 : 0 ≤ v := swGet_nonneg hswd hv
            have hw0 : 0 ≤ w := swcGet_nonneg hswc hw
            refine ⟨?_, ?_⟩ <;> simp <;> linarith [hinv.1, hinv.2]

/-! ### Lemmas about the statistics formulas -/

theorem all_identical_length {l : List ℚ} (h : Statistics.all_identical l = false) :
    2 ≤ l.length := by
  match l with
  | [] => simp [Statistics.all_identical] at h
  | [a] => simp [Statistics.all_identical] at h
  | a :: b :: t => simp

theorem all_identical_of_const {c : ℚ} :
    ∀ {l : List ℚ}, (∀ i, i < l.length → l.getD i 0 = c) →
      Statistics.all_identical l = true := by
  intro l
  induction l with
  | nil => intro _; rfl
  | cons a t ih =>
    intro h
    cases t with
    | nil => rfl
    | cons b t' =>
      have ha : a = c := by simpa using h 0 (by simp)
      have hb : b = c := by simpa using h 1 (by simp)
      have ht : ∀ i, i < (b :: t').length → (b :: t').getD i 0 = c := by
        intro i hi
        simpa using h (i + 1) (by simpa using Nat.succ_lt_succ hi)
      unfold Statistics.all_identical
      rw [if_pos (ha.trans hb.symm)]
      exact ih ht

theorem list_sum_zero_of_nonneg {L : List ℚ} (h0 : ∀ x ∈ L, 0 ≤ x) (h : L.sum = 0) :
    ∀ x ∈ L, x = 0 := by
  induction L with
  | nil => intro x hx; cases hx
  | cons a t ih =>
    intro x hx
    have ha : 0 ≤ a := h0 a (by simp)
    have hts : 0 ≤ t.sum := List.sum_nonneg (fun y hy => h0 y (by simp [hy]))
    have hsum : a + t.sum = 0 := by simpa using h
    have ha0 : a = 0 := le_antisymm (by linarith) ha
    rcases List.mem_cons.mp hx with hx | hx
    · subst hx; exact ha0
    · exact ih (fun y hy => h0 y (by simp [hy])) (by linarith) x hx

theorem sst_ne_zero {meas : List ℚ} (h : Statistics.all_identical meas = false) :
    ((List.range meas.length).map
      (fun i => (meas.getD i 0 - meas.sum / (meas.length : ℚ)) ^ 2)).sum ≠ 0 := by
  intro hz
  have hterm : ∀ i, i < meas.length →
      (meas.getD i 0 - meas.sum / (meas.length : ℚ)) ^ 2 = 0 := by
    intro i hi
    refine list_sum_zero_of_nonneg ?_ hz _ ?_
    · intro x hx
      rcases List.mem_map.mp hx with ⟨j, _, rfl⟩
      positivity
    · exact List.mem_map.mpr ⟨i, List.mem_range.mpr hi, rfl⟩
  have hconst : ∀ i, i < meas.length →
      meas.getD i 0 = meas.sum / (meas.length : ℚ) := by
    intro i hi
    have h2 := pow_eq_zero_iff (n := 2) (by norm_num) |>.mp (hterm i hi)
    linarith [sub_eq_zero.mp h2]
  have := all_identical_of_const hconst
  rw [h] at this
  cases this

theorem range_map_sum (n : Nat) (f : Nat → ℚ) :
    ((List.range n).map f).sum = ∑ i ∈ Finset.range n, f i := by
  induction n with
  | zero => simp
  | succ k ih =>
    rw [List.range_succ, List.map_append, List.sum_append, Finset.sum_range_succ, ih]
    simp

theorem rmse_eval (meas modeled : List ℚ) (hlen : meas.length = modeled.length)
    (hne0 : meas.length ≠ 0) :
    Statistics.rmse meas modeled = .ok (Real.sqrt
      (((∑ i ∈ Finset.range meas.length,
        (meas.getD i 0 - modeled.getD i 0) ^ 2) / (meas.length : ℚ) : ℚ))) := by
  unfold Statistics.rmse Statistics.rmseRad
  rw [if_neg (by omega : ¬ modeled.length < meas.length)]
  dsimp only
  rw [if_neg (by simp [hne0])]
  rw [List.map_map]
  rw [show ((fun x => x ^ 2) ∘ fun i => meas.getD i 0 - modeled.getD i 0)
      = fun i => (meas.getD i 0 - modeled.getD i 0) ^ 2 from rfl]
  rw [range_map_sum]
  simp

theorem nse_eval (meas modeled : List ℚ) (hlen : meas.length = modeled.length)
    (hm : Statistics.all_identical meas = false) :
    Statistics.nse meas modeled = .ok
      (1 - (∑ i ∈ Finset.range meas.length, (meas.getD i 0 - modeled.getD i 0) ^ 2)
        / (∑ i ∈ Finset.range meas.length,
            (meas.getD i 0 - meas.sum / (meas.length : ℚ)) ^ 2)) := by
  have hne0 : meas.length ≠ 0 := by
    have := all_identical_length hm
    omega
  unfold Statistics.nse
  rw [if_neg hne0, if_neg (by omega : ¬ modeled.length < meas.length)]
  dsimp only
  rw [if_neg (sst_ne_zero hm)]
  rw [range_map_sum, range_map_sum]

theorem linregress_eval (meas modeled : List ℚ) (hlen : meas.length = modeled.length)
    (hM : Statistics.all_identical modeled = false) :
    Statistics.linregressR2 meas modeled = .ok (Statistics.rsqVal meas modeled) := by
  unfold Statistics.linregressR2
  rw [if_neg (by simp [hM]), if_neg (by omega)]

/-! ### Claims C4, C5, C7: the Statistics calculator -/

/-- C4: for every pair of equal-length input sequences where the measured
sequence is constant (vacuously including the empty sequence), or the
modeled sequence is constant, or the two sequences are element-wise
identical, the Statistics computation returns exactly (0, 0, 1, 1) for
(RMSE, bias%, R-squared, NSE). -/
theorem claim_C4_statistics_degenerate (meas modeled : List ℚ)
    (_hlen : meas.length = modeled.length)
    (hdeg : Statistics.all_identical meas = true ∨
      Statistics.all_identical modeled = true ∨ meas = modeled) :
    Statistics.statistics meas modeled = .ok ((0 : ℝ), 0, 1, 1) := by
  unfold Statistics.statistics
  rw [if_neg]
  rintro ⟨hne, hm2, hM2⟩
  rcases hdeg with h | h | h
  · exact absurd h (by simp [hm2])
  · exact absurd h (by simp [hM2])
  · exact hne h

/-- C4 witness: the empty pair is degenerate and returns (0, 0, 1, 1). -/
theorem claim_C4_statistics_degenerate_witness :
    Statistics.statistics [] [] = .ok ((0 : ℝ), 0, 1, 1) :=
  claim_C4_statistics_degenerate [] [] rfl (Or.inr (Or.inr rfl))

/-- C5: for every pair of equal-length non-degenerate input sequences
(neither constant, not identical, mean of the measured sequence nonzero),
Statistics returns RMSE = sqrt of the mean squared pointwise difference,
bias% = (mean(modeled) - mean(meas)) / mean(meas) * 100, and
NSE = 1 - (sum of squared errors / sum of squared deviations of meas from
its own mean); the R-squared slot carries the squared Pearson correlation. -/
theorem claim_C5_statistics_formulas (meas modeled : List ℚ)
    (hlen : meas.length = modeled.length)
    (hm : Statistics.all_identical meas = false)
    (hM : Statistics.all_identical modeled = false)
    (hne : meas ≠ modeled)
    (hmean : meas.sum / (meas.length : ℚ) ≠ 0) :
    Statistics.statistics meas modeled = .ok
      (Real.sqrt (((∑ i ∈ Finset.range meas.length,
          (meas.getD i 0 - modeled.getD i 0) ^ 2) / (meas.length : ℚ) : ℚ)),
       (modeled.sum / (modeled.length : ℚ) - meas.sum / (meas.length : ℚ))
         / (meas.sum / (meas.length : ℚ)) * 100,
       Statistics.rsqVal meas modeled,
       1 - (∑ i ∈ Finset.range meas.length, (meas.getD i 0 - modeled.getD i 0) ^ 2)
         / (∑ i ∈ Finset.range meas.length,
             (meas.getD i 0 - meas.sum / (meas.length : ℚ)) ^ 2)) := by
  have h2 := all_identical_length hm
  have hne0 : meas.length ≠ 0 := by omega
  have hne0' : modeled.length ≠ 0 := by omega
  unfold Statistics.statistics
  rw [if_pos ⟨hne, hm, hM⟩, if_neg hne0, if_neg hne0',
    rmse_eval meas modeled hlen hne0]
  dsimp only
  rw [if_neg hmean, linregress_eval meas modeled hlen hM]
  dsimp only
  rw [nse_eval meas modeled hlen hm]

/-- C5 witness: meas = [1,2,3], modeled = [1,2,4] gives RMSE = sqrt(1/3),
bias% = 50/3, R-squared = 27/28, NSE = 1/2. -/
theorem claim_C5_statistics_formulas_witness :
    Statistics.statistics [1, 2, 3] [1, 2, 4] = .ok
      (Real.sqrt ((1 : ℝ) / 3), 50 / 3, 27 / 28, 1 / 2) := by
  have h := claim_C5_statistics_formulas [1, 2, 3] [1, 2, 4] (by simp)
    (by norm_num [Statistics.all_identical])
    (by norm_num [Statistics.all_identical])
    (by norm_num)
    (by norm_num [List.sum_cons, List.sum_nil])
  rw [h]
  norm_num [Statistics.rsqVal, Finset.sum_range_succ, List.range_succ,
    List.sum_cons, List.sum_nil, List.getD, List.map_append, List.sum_append]

/-- C7 counterexample: at meas = [1,-1], modeled = [2,3] (equal length,
mean(meas) = 0, neither constant, not identical) the computation does not
return a value at all: the bias division raises ZeroDivisionError, so no
infinite/undefined value is propagated to the caller. -/
theorem claim_C7_counterexample :
    Statistics.statistics [1, -1] [2, 3] = .error .zeroDivision := by
  unfold Statistics.statistics
  rw [if_pos ⟨by norm_num, by norm_num [Statistics.all_identical],
    by norm_num [Statistics.all_identical]⟩]
  rw [if_neg (by norm_num), if_neg (by norm_num)]
  rw [rmse_eval [1, -1] [2, 3] (by simp) (by norm_num)]
  dsimp only
  rw [if_pos (by norm_num [List.sum_cons, List.sum_nil])]

/-- C7 (amended): for every pair of equal-length sequences with
mean(meas) = 0 where neither sequence is constant and the sequences are
not identical, the bias% computation divides by zero and Python raises an
uncaught ZeroDivisionError that propagates to the caller (the code does
not special-case it), instead of returning an infinite/undefined value. -/
theorem claim_C7_zero_mean_raises (meas modeled : List ℚ)
    (hlen : meas.length = modeled.length)
    (hm : Statistics.all_identical meas = false)
    (hM : Statistics.all_identical modeled = false)
    (hne : meas ≠ modeled)
    (hmean : meas.sum / (meas.length : ℚ) = 0) :
    Statistics.statistics meas modeled = .error .zeroDivision := by
  have h2 := all_identical_length hm
  have hne0 : meas.length ≠ 0 := by omega
  have hne0' : modeled.length ≠ 0 := by omega
  unfold Statistics.statistics
  rw [if_pos ⟨hne, hm, hM⟩, if_neg hne0, if_neg hne0',
    rmse_eval meas modeled hlen hne0]
  dsimp only
  rw [if_pos hmean]

/-- C7 witness for the amended claim: meas = [2,-2], modeled = [1,3]. -/
theorem claim_C7_zero_mean_raises_witness :
    Statistics.statistics [2, -2] [1, 3] = .error .zeroDivision :=
  claim_C7_zero_mean_raises [2, -2] [1, 3] (by simp)
    (by norm_num [Statistics.all_identical])
    (by norm_num [Statistics.all_identical])
    (by norm_num)
    (by norm_num [List.sum_cons, List.sum_nil])

theorem ebind_ok {e : Except PyErr α} {f : α → Except PyErr β} {c : β}
    (h : ebind e f = .ok c) : ∃ a, e = .ok a ∧ f a = .ok c := by
  cases e with
  | error err => simp [ebind] at h
  | ok a => exact ⟨a, rfl, h⟩

/-! ### Claim C2: the deficit derivation -/

/-- C2: with a model collaborator supplied, `compute_swd_from_swc` sets
`deficit[layer, date] = max(0, field_capacity[layer] - content[layer, date])`
for every layer and date column, with the field capacity per layer from the
model's soil data when present and otherwise the scalar thetaFC default;
consequently every value of the resulting deficit table is nonnegative. -/
theorem claim_C2_deficit_clamped (st st' : SoilWater) (m : Model) (swc : LayerTable)
    (hm : st.mdl = some m) (hc : st.swcdata = some swc)
    (hok : compute_swd_from_swc st = .ok st') :
    ∃ t, st'.swddata = some t ∧ t.cols = swc.cols ∧
      List.Forall₂ (fun (r r' : Nat × List ℚ) =>
        r'.1 = r.1 ∧ ∃ fc, fcOf m r.1 = .ok fc ∧
          r'.2 = r.2.map (fun c => max 0 (fc - c))) swc.rows t.rows ∧
      ∀ r' ∈ t.rows, ∀ v ∈ r'.2, 0 ≤ v := by
  unfold compute_swd_from_swc at hok
  rw [hc, hm] at hok
  obtain ⟨rows, hmap, hout⟩ := ebind_ok hok
  cases hout
  have h2 := tmapM_forall₂ hmap
  refine ⟨⟨swc.cols, rows⟩, rfl, rfl, ?_, ?_⟩
  · refine List.Forall₂.imp ?_ h2
    intro r r' hf
    obtain ⟨fc, hfc, hr'⟩ := ebind_ok hf
    cases hr'
    exact ⟨rfl, fc, hfc, by simp [max_comm]⟩
  · intro r' hr' v hv
    obtain ⟨r, _, hf⟩ := forall₂_mem_right h2 r' hr'
    obtain ⟨fc, _, hr'⟩ := ebind_ok hf
    cases hr'
    rcases List.mem_map.mp hv with ⟨c, _, rfl⟩
    exact le_max_right _ 0

/-- C2 witness: per-layer soil data with thetaFC = 0.3 and content 0.25 at
layer 10 gives deficit 0.05, which is nonnegative. -/
theorem claim_C2_deficit_clamped_witness :
    compute_swd_from_swc stC2 = .ok
      ⟨some ⟨some [(10, 3/10)], 1/2, 1, []⟩, some ⟨[date1], [(10, [1/4])]⟩,
       some ⟨[date1], [(10, [1/20])]⟩, none⟩ ∧ (0 : ℚ) ≤ 1/20 := by
  have hok : compute_swd_from_swc stC2 = .ok
      ⟨some ⟨some [(10, 3/10)], 1/2, 1, []⟩, some ⟨[date1], [(10, [1/4])]⟩,
       some ⟨[date1], [(10, [1/20])]⟩, none⟩ := by
    norm_num [compute_swd_from_swc, stC2, fcOf, tmapM, ebind, List.find?]
  obtain ⟨t, ht, -, -, hpos⟩ := claim_C2_deficit_clamped stC2 _ _ _ rfl rfl hok
  have ht' : ({ cols := [date1], rows := [(10, [1/20])] } : LayerTable) = t := by
    simpa using ht
  subst ht'
  exact ⟨hok, hpos (10, [1/20]) (by norm_num) (1/20) (by norm_num)⟩

/-! ### Claim C8: soft failures leave the state unchanged -/

/-- C8: every soft failure is a message-and-return with no state mutation
and no exception reaching the caller: a load from an unopenable path
leaves the corresponding table unchanged; a save with an unopenable
destination or no path writes nothing; `compute_swd_from_swc` without a
model collaborator (and with a content table present) returns the state
unchanged; `compute_root_zone_sw` with an unpopulated deficit table
returns the state unchanged. -/
theorem claim_C8_soft_failures (st : SoilWater) (t : LayerTable) :
    (loadfile st (some none) none none = .ok st) ∧
    (loadfile st none (some none) none = .ok st) ∧
    (loadfile st none none (some none) = .ok st) ∧
    (savefile st none none none = .ok (none, none, none)) ∧
    (savefile st (some false) (some false) (some false) = .ok (none, none, none)) ∧
    (st.mdl = none → st.swcdata = some t → compute_swd_from_swc st = .ok st) ∧
    (st.swddata = none → compute_root_zone_sw st = .ok st) := by
  refine ⟨rfl, rfl, rfl, rfl, rfl, ?_, ?_⟩
  · intro hmdl hswc
    unfold compute_swd_from_swc
    rw [hswc, hmdl]
  · intro hswd
    unfold compute_root_zone_sw
    rw [hswd]

/-- C8 witness: a state with no model, an empty content table and
unpopulated deficit/root-zone tables exhibits all four soft failures. -/
theorem claim_C8_soft_failures_witness :
    loadfile stC8 (some none) none none = .ok stC8 ∧
    savefile stC8 (some false) (some false) (some false) = .ok (none, none, none) ∧
    compute_swd_from_swc stC8 = .ok stC8 ∧
    compute_root_zone_sw stC8 = .ok stC8 := by
  have h := claim_C8_soft_failures stC8 ⟨[], []⟩
  exact ⟨h.1, h.2.2.2.2.1, h.2.2.2.2.2.1 rfl rfl, h.2.2.2.2.2.2 rfl⟩

/-! ### Claim C9: save/load round trip -/

theorem tmapM_map_comp {f : β → Except PyErr γ} {σ : α → β} {g : α → γ} :
    ∀ {l : List α}, (∀ a ∈ l, f (σ a) = .ok (g a)) →
      tmapM f (l.map σ) = .ok (l.map g) := by
  intro l
  induction l with
  | nil => intro _; rfl
  | cons a t ih =>
    intro h
    have ha : f (σ a) = .ok (g a) := h a (by simp)
    have ht := ih (fun x hx => h x (by simp [hx]))
    simp only [List.map_cons, tmapM, ha, ht]

theorem loadLayerFile_saveLayerTable (t : LayerTable)
    (hw : ∀ r ∈ t.rows, r.2.length = t.cols.length) :
    loadLayerFile (saveLayerTable t) = .ok ⟨t.cols, t.rows.map roundRow⟩ := by
  unfold loadLayerFile saveLayerTable
  have hmap : tmapM (fun (r : Nat × List ℚ) =>
      if r.2.length < t.cols.length then (.error .indexError : Except PyErr (Nat × List ℚ))
      else .ok (r.1, r.2.take t.cols.length))
      (t.rows.map (fun r => (r.1, r.2.map round3))) = .ok (t.rows.map roundRow) := by
    refine tmapM_map_comp ?_
    intro r hrmem
    have hlen : ((r.1, r.2.map round3) : Nat × List ℚ).2.length = t.cols.length := by
      simp [hw r hrmem]
    rw [if_neg (by omega)]
    rw [show ((r.1, r.2.map round3) : Nat × List ℚ).2.take t.cols.length
        = r.2.map round3 by rw [← hlen, List.take_length]]
    rfl
  rw [hmap]
  rfl

theorem loadRzFile_saveRzTable (rz : List RzRow)
    (hcanon : ∀ row ∈ rz, ∃ y d, row.date = fmtDate y d ∧
      row.year = some (padChars 4 y) ∧ row.doy = some (padChars 3 d)) :
    loadRzFile (saveRzTable rz) = .ok (rz.map roundRz) := by
  unfold loadRzFile saveRzTable
  refine tmapM_map_comp ?_
  intro r hrmem
  obtain ⟨y, d, hdate, hyear, hdoy⟩ := hcanon r hrmem
  rw [hyear, hdoy]
  dsimp only
  rw [if_neg (by norm_num)]
  rw [parseNatL_padChars, parseNatL_padChars, ← hdate]
  rfl

/-- C9: for every populated content, deficit and root-zone table (the
root-zone table in the canonical form produced by derivation), saving to a
writable path and loading the written file back reproduces the table's
keys exactly and its values rounded to the written three-decimal
precision (every rounded value is within 1/2000 of the original); the
root-zone composite date keys are rebuilt identically from the written
Year and DOY fields. -/
theorem claim_C9_save_load_roundtrip (st : SoilWater) (tc td : LayerTable)
    (rz : List RzRow)
    (hc : st.swcdata = some tc) (hwc : ∀ r ∈ tc.rows, r.2.length = tc.cols.length)
    (hd : st.swddata = some td) (hwd : ∀ r ∈ td.rows, r.2.length = td.cols.length)
    (hr : st.rzdata = some rz)
    (hcanon : ∀ row ∈ rz, ∃ y dy, row.date = fmtDate y dy ∧
      row.year = some (padChars 4 y) ∧ row.doy = some (padChars 3 dy)) :
    savefile st (some true) (some true) (some true) =
      .ok (some (saveLayerTable tc), some (saveLayerTable td), some (saveRzTable rz)) ∧
    loadLayerFile (saveLayerTable tc) = .ok ⟨tc.cols, tc.rows.map roundRow⟩ ∧
    loadLayerFile (saveLayerTable td) = .ok ⟨td.cols, td.rows.map roundRow⟩ ∧
    (∀ st2 : SoilWater, loadfile st2 (some (some (saveLayerTable tc)))
        (some (some (saveLayerTable td))) (some (some (saveRzTable rz))) =
      .ok { st2 with swcdata := some ⟨tc.cols, tc.rows.map roundRow⟩,
                     swddata := some ⟨td.cols, td.rows.map roundRow⟩,
                     rzdata := some (rz.map roundRz) }) ∧
    (∀ q : ℚ, |round3 q - q| ≤ 1 / 2000) := by
  have h1 := loadLayerFile_saveLayerTable tc hwc
  have h2 := loadLayerFile_saveLayerTable td hwd
  have h3 := loadRzFile_saveRzTable rz hcanon
  refine ⟨?_, h1, h2, ?_, fun q => round3_close q⟩
  · unfold savefile
    rw [hc, hd, hr]
    rfl
  · intro st2
    unfold loadfile
    dsimp only
    rw [h1, h2, h3]
    rfl

/-- C9 witness: the concrete tables of `stC9` (content value 1/3 becomes
0.333 within 1/2000, deficit value 1/20 and the root-zone row keyed
'2022-001' survive exactly up to rounding). -/
theorem claim_C9_save_load_roundtrip_witness :
    savefile stC9 (some true) (some true) (some true) =
      .ok (some (saveLayerTable tcW), some (saveLayerTable tdW), some (saveRzTable rzW)) ∧
    loadfile stC9 (some (some (saveLayerTable tcW))) (some (some (saveLayerTable tdW)))
      (some (some (saveRzTable rzW))) =
      .ok { stC9 with swcdata := some ⟨tcW.cols, tcW.rows.map roundRow⟩,
                      swddata := some ⟨tdW.cols, tdW.rows.map roundRow⟩,
                      rzdata := some (rzW.map roundRz) } ∧
    |round3 (1/3 : ℚ) - 1/3| ≤ 1 / 2000 := by
  have h := claim_C9_save_load_roundtrip stC9 tcW tdW rzW rfl
    (by intro r hr; rcases List.mem_singleton.mp hr with rfl; rfl)
    rfl
    (by intro r hr; rcases List.mem_singleton.mp hr with rfl; rfl)
    rfl
    (by
      intro row hrow
      rcases List.mem_singleton.mp hrow with rfl
      exact ⟨2022, 1, rfl, rfl, rfl⟩)
  exact ⟨h.1, h.2.2.2.1 stC9, h.2.2.2.2 (1/3)⟩

/-! ### Claims C1, C10, C3, C6: the root-zone derivation -/

/-- C1: for every measurement date that `compute_root_zone_sw` processes
into the root-zone table, the stored MeasKs equals the median of the three
values {0, (TAW - SWDr)/(TAW - RAW), 1} taken with that date's TAW and RAW
from the model output table and the accumulated active-root-zone deficit
SWDr, which equals clamp((TAW - SWDr)/(TAW - RAW), 0, 1); hence MeasKs
always lies in [0, 1]. -/
theorem claim_C1_measks_clamped (st st' : SoilWater) (swd : LayerTable) (m : Model)
    (hswd : st.swddata = some swd) (hm : st.mdl = some m)
    (hok : compute_root_zone_sw st = .ok st') :
    ∃ rows, st'.rzdata = some rows ∧ ∀ r ∈ rows, ∃ o,
      m.odata.find? (fun q => q.date = r.date) = some o ∧
      r.MeasKs = ksOf o.TAW o.RAW r.SWDr ∧
      r.MeasKs = max 0 (min ((o.TAW - r.SWDr) / (o.TAW - o.RAW)) 1) ∧
      0 ≤ r.MeasKs ∧ r.MeasKs ≤ 1 := by
  unfold compute_root_zone_sw at hok
  rw [hswd, hm] at hok
  obtain ⟨u, -, hok⟩ := ebind_ok hok
  dsimp only at hok
  obtain ⟨sums, -, hok⟩ := ebind_ok hok
  obtain ⟨rows, hrows, hok⟩ := ebind_ok hok
  cases hok
  refine ⟨rows, rfl, ?_⟩
  intro r hr
  obtain ⟨p, hp, hbuild⟩ := forall₂_mem_right (tmapM_forall₂ hrows) r hr
  unfold buildRow at hbuild
  cases ho : odLookup m.odata p.1 with
  | error e => rw [ho] at hbuild; simp at hbuild
  | ok o =>
    rw [ho] at hbuild
    dsimp only at hbuild
    cases hbuild
    refine ⟨o, ?_, rfl, ksOf_eq_clamp _ _ _, (ksOf_mem_unit _ _ _).1,
      (ksOf_mem_unit _ _ _).2⟩
    unfold odLookup at ho
    cases hf : m.odata.find? (fun q => q.date = p.1) with
    | none => rw [hf] at ho; simp at ho
    | some o' => rw [hf] at ho; cases ho; rfl

/-- C1 witness: on `stC1` the derivation produces one row whose MeasKs is
the clamped value 1 (since (10 - 0.002)/(10 - 5) > 1), inside [0, 1]. -/
theorem claim_C1_measks_clamped_witness :
    compute_root_zone_sw stC1 = .ok { stC1 with rzdata := some [rowC1] } ∧
    rowC1.MeasKs = ksOf 10 5 rowC1.SWDr ∧ 0 ≤ rowC1.MeasKs ∧ rowC1.MeasKs ≤ 1 := by
  have hsplit : splitDash date1 = [['2','0','2','2'], ['0','0','1']] := by decide
  have hpy : pyInt (3 : ℚ) = 3 := rfl
  have hr2 : List.range' 1 2 = [1, 2] := by decide
  have hok : compute_root_zone_sw stC1 = .ok { stC1 with rzdata := some [rowC1] } := by
    norm_num [compute_root_zone_sw, stC1, rowC1, tmapM, hsplit, hpy, hr2, dateLoop,
      incStep, efoldl, lyrFind, swGet, swcGet, idxOf?, buildRow, odLookup, ksOf, ebind,
      List.insertionSort, List.orderedInsert, List.range', List.find?, List.filterMap]
  obtain ⟨rows, hrz, hall⟩ := claim_C1_measks_clamped stC1 _ _ _ rfl rfl hok
  have hrows : [rowC1] = rows := by simpa using hrz
  subst hrows
  obtain ⟨o, hfind, hks, -, h0, h1⟩ := hall rowC1 (by simp)
  have ho : (⟨date1, 1/100000, 10, 5⟩ : OutRow) = o := by
    simpa [List.find?, rowC1] using hfind
  subst ho
  exact ⟨hok, hks, h0, h1⟩

/-- C10: for every date row produced by `compute_root_zone_sw`, if all the
deficit-table and content-table entries used are nonnegative, then the
active-root-zone accumulations never exceed the maximum-root-zone ones:
SWDr <= SWDrmax and SWCr <= SWCrmax (the active accumulator adds a subset
of the nonnegative terms the max accumulator adds). -/
theorem claim_C10_active_le_max (st st' : SoilWater) (swd : LayerTable) (m : Model)
    (hswd : st.swddata = some swd) (hm : st.mdl = some m)
    (hswdpos : ∀ r ∈ swd.rows, ∀ x ∈ r.2, 0 ≤ x)
    (hswcpos : ∀ t, st.swcdata = some t → ∀ r ∈ t.rows, ∀ x ∈ r.2, 0 ≤ x)
    (hok : compute_root_zone_sw st = .ok st') :
    ∃ rows, st'.rzdata = some rows ∧
      ∀ r ∈ rows, r.SWDr ≤ r.SWDrmax ∧ r.SWCr ≤ r.SWCrmax := by
  unfold compute_root_zone_sw at hok
  rw [hswd, hm] at hok
  obtain ⟨u, -, hok⟩ := ebind_ok hok
  dsimp only at hok
  obtain ⟨sums, hsums, hok⟩ := ebind_ok hok
  obtain ⟨rows, hrows, hok⟩ := ebind_ok hok
  cases hok
  refine ⟨rows, rfl, ?_⟩
  intro r hr
  obtain ⟨p, hp, hbuild⟩ := forall₂_mem_right (tmapM_forall₂ hrows) r hr
  unfold buildRow at hbuild
  cases ho : odLookup m.odata p.1 with
  | error e => rw [ho] at hbuild; simp at hbuild
  | ok o =>
    rw [ho] at hbuild
    dsimp only at hbuild
    cases hbuild
    cases hfind : sums.find? (fun q => q.1 = p.1) with
    | none => simp [hfind]
    | some pa =>
      have hmem : pa ∈ sums := List.mem_of_find?_eq_some hfind
      obtain ⟨zr', hfold⟩ := dateLoop_mem hsums pa hmem
      have hinv := efoldl_inv (P := fun b => b.Dr ≤ b.Drmax ∧ b.H2Or ≤ b.H2Ormax)
        (fun b i b' hb hstep =>
          incStep_mono hswdpos (fun t ht => hswcpos t ht) hb hstep)
        ⟨le_refl 0, le_refl 0⟩ hfold
      simp only [hfind, Option.map_some, Option.getD_some]
      exact hinv

/-- C10 witness: on `stC10` the derived row has SWDr = 0.001 <= 0.002 =
SWDrmax and SWCr = 0.004 <= 0.008 = SWCrmax. -/
theorem claim_C10_active_le_max_witness :
    compute_root_zone_sw stC10 = .ok { stC10 with rzdata := some [rowC10] } ∧
    rowC10.SWDr ≤ rowC10.SWDrmax ∧ rowC10.SWCr ≤ rowC10.SWCrmax := by
  have hsplit : splitDash date1 = [['2','0','2','2'], ['0','0','1']] := by decide
  have hpy : pyInt (3 : ℚ) = 3 := rfl
  have hr2 : List.range' 1 2 = [1, 2] := by decide
  have hok : compute_root_zone_sw stC10 = .ok { stC10 with rzdata := some [rowC10] } := by
    norm_num [compute_root_zone_sw, stC10, rowC10, tmapM, hsplit, hpy, hr2, dateLoop,
      incStep, efoldl, lyrFind, swGet, swcGet, idxOf?, buildRow, odLookup, ksOf, ebind,
      List.insertionSort, List.orderedInsert, List.range', List.find?, List.filterMap]
  obtain ⟨rows, hrz, hall⟩ := claim_C10_active_le_max stC10 _ _ _ rfl rfl
    (by
      intro r hr x hx
      rcases List.mem_singleton.mp hr with rfl
      rcases List.mem_singleton.mp hx with rfl
      norm_num)
    (by
      intro t ht r hr x hx
      cases ht
      rcases List.mem_singleton.mp hr with rfl
      rcases List.mem_singleton.mp hx with rfl
      norm_num)
    hok
  have hrows : [rowC10] = rows := by simpa using hrz
  subst hrows
  exact ⟨hok, hall rowC10 (by simp)⟩

/-- C3: at `stC3` the deficit table's only date '2022-001' is absent from
the model output table, but instead of being silently skipped the
derivation raises UnboundLocalError: the caught KeyError leaves the loop
variable `Zr` unassigned and the first increment's `inc <= Zr` test reads
it. This contradicts the code's own intent comment ("Ignoring mismatches
in measured/modeled data") and the specification, so the claim is right
and the code has a slip for mismatched dates that precede every matched
date. -/
theorem claim_C3_failing_evaluation :
    compute_root_zone_sw stC3 = .error .unboundLocal := by
  have hsplit : splitDash date1 = [['2','0','2','2'], ['0','0','1']] := by decide
  have hpy : pyInt (3 : ℚ) = 3 := rfl
  have hr2 : List.range' 1 2 = [1, 2] := by decide
  have hne : ¬ (date2 = date1) := by decide
  norm_num [compute_root_zone_sw, stC3, tmapM, hsplit, hpy, hr2, hne, dateLoop, incStep,
    efoldl, lyrFind, swGet, swcGet, idxOf?, ebind, List.range', List.find?, List.filterMap]

/-- C6: for the input `stC6`, whose configured maximum root depth
(Zrmax = 0.011 m) extends beyond the deepest defined soil-layer bottom
depth (1 cm = 0.01 m), the per-increment layer lookup of
`compute_root_zone_sw` finds no layer at increment 1001 and raises
IndexError (the `[..][0]` indexing of an empty comprehension); the
increment walk is not guarded against running past the deepest layer. -/
theorem claim_C6_unguarded_walk :
    compute_root_zone_sw stC6 = .error .indexError := by
  have hsplit : splitDash date1 = [['2','0','2','2'], ['0','0','1']] := by decide
  have hpy : pyInt (1101 : ℚ) = 1101 := rfl
  have hstep : ∀ i ∈ List.range' 1 1000, ∀ b : Acc4,
      incStep ⟨[date1], [(1, [0])]⟩ (some ⟨[date1], [(1, [0])]⟩) date1 (some 1) b i
        = .ok b := by
    intro i hi b
    have hi' := List.mem_range'_1.mp hi
    have h1000 : i ≤ 1000 := by omega
    norm_num [incStep, lyrFind, swGet, swcGet, idxOf?, List.filter, List.find?, h1000]
  have hsplitincs : List.range' 1 1100 = List.range' 1 1000 ++ List.range' 1001 100 := by
    have h := List.range'_append 1 1000 100 1
    norm_num at h
    exact h.symm
  have h1001 : List.range' 1001 100 = 1001 :: List.range' 1002 99 := by
    have h := List.range'_succ 1001 99 1
    norm_num at h
    exact h
  have hfold : efoldl (incStep ⟨[date1], [(1, [0])]⟩ (some ⟨[date1], [(1, [0])]⟩) date1
      (some 1)) ⟨0, 0, 0, 0⟩ (List.range' 1 1100) = .error .indexError := by
    rw [hsplitincs, efoldl_append, efoldl_id hstep, h1001]
    norm_num [efoldl, incStep, lyrFind, List.filter]
  have htn : (1100 : ℤ).toNat = 1100 := rfl
  norm_num [compute_root_zone_sw, stC6, tmapM, hsplit, hpy, dateLoop, ebind, hfold, htn,
    List.find?, List.filterMap]
